import Mathlib

/-!
Shallow embedding of `internal/stdforward/stdforward.go`.

The package forwards everything written on the process-global stdout/stderr
handles to a dynamic set of registered writers.  State that matters to the
claims: the two global handles (`os.Stdout`, `os.Stderr`), and per forwarder
the captured original handle (`out`), the registry map (`writers`), and the
`sync.Once` gate.  Pipe allocation (`os.Pipe`) is an oracle passed in as an
`Option (Handle × Handle)`; the copy-loop goroutine and the one-time handle
swap are recorded as counters so once-ness can be stated.  Writers are
identified by opaque tokens; a writer's `Write` outcome is an oracle
`String → Option String` keyed by registry id.
-/

set_option autoImplicit false

namespace Stdforward

/-- An `os.File` handle, modelled as an opaque token. -/
abbrev Handle := Nat

/-- An `io.Writer` capability, modelled as an opaque token. -/
abbrev WriterId := Nat

/-- One byte of forwarded data. -/
abbrev Byte := Nat

/-- Which of the two streams a call targets. -/
inductive StreamKind where
  | stdout
  | stderr
deriving DecidableEq, Repr

/-- The Go `forwarder` struct.  `out` and `writers` are `Option` because their
Go zero values are nil; `once` is whether the `sync.Once` has fired.  The three
counters record how many times the once-body allocated a pipe, started the
copy-loop goroutine, and executed the global-handle swap `os.Stdout = wOut`. -/
structure Forwarder where
  out : Option Handle := none
  writers : Option (List (String × WriterId)) := none
  once : Bool := false
  pipesAllocated : Nat := 0
  copyLoopsStarted : Nat := 0
  swapsPerformed : Nat := 0
deriving DecidableEq, Repr

/-- Process-global state: the two stream handles and the two package-level
forwarder variables `stdoutForwarder`, `stderrForwarder`. -/
structure St where
  stdout : Handle
  stderr : Handle
  stdoutForwarder : Forwarder
  stderrForwarder : Forwarder
deriving DecidableEq, Repr

/-- The process state at startup: distinct real handles, zero-value forwarders. -/
def initSt : St :=
  { stdout := 1, stderr := 2, stdoutForwarder := {}, stderrForwarder := {} }

/-- Go map assignment `m[id] = w`: replace the entry for `id` in place if
present, otherwise append it. -/
def mapInsert (m : List (String × WriterId)) (id : String) (w : WriterId) :
    List (String × WriterId) :=
  match m with
  | [] => [(id, w)]
  | (k, v) :: rest => if k = id then (id, w) :: rest else (k, v) :: mapInsert rest id w

/-- Go map `delete(m, id)`: drop the entry for `id` if present. -/
def mapDelete (m : List (String × WriterId)) (id : String) :
    List (String × WriterId) :=
  match m with
  | [] => []
  | (k, v) :: rest => if k = id then rest else (k, v) :: mapDelete rest id

/-- Go map read `m[id]`. -/
def mapLookup (m : List (String × WriterId)) (id : String) : Option WriterId :=
  match m with
  | [] => none
  | (k, v) :: rest => if k = id then some v else mapLookup rest id

/-- The key set of the registry map. -/
def mapKeys (m : List (String × WriterId)) : List String :=
  m.map Prod.fst

/-- Go map invariant: registry keys are pairwise distinct. -/
def NodupKeys (m : List (String × WriterId)) : Prop :=
  (mapKeys m).Nodup

/-- Project the forwarder a call targets. -/
def getFwd (st : St) : StreamKind → Forwarder
  | .stdout => st.stdoutForwarder
  | .stderr => st.stderrForwarder

/-- Store back the forwarder a call targets. -/
def setFwd (st : St) (k : StreamKind) (f : Forwarder) : St :=
  match k with
  | .stdout => { st with stdoutForwarder := f }
  | .stderr => { st with stderrForwarder := f }

/-- `addWriter(dest, std, id, w)` from the source.  The once-body captures
`std` into `dest.out`, makes the map, asks the pipe oracle; on pipe failure it
sets `onceErr` and returns early; on success it starts the copy loop and then
executes `os.Stdout = wOut` — unconditionally `os.Stdout`, for both forwarders,
exactly as the source does.  After the once-body, a non-nil `onceErr` is
returned, otherwise `dest.writers[id] = w` and nil. -/
def addWriter (st : St) (dest : StreamKind) (std : Handle) (id : String)
    (w : WriterId) (pipeRes : Option (Handle × Handle)) : St × Option String :=
  let f0 := getFwd st dest
  let step :=
    if f0.once then (st, f0, (none : Option String))
    else
      let f1 := { f0 with once := true, out := some std, writers := some [] }
      match pipeRes with
      | none => (st, f1, some "Can't redirect output")
      | some (_rOut, wOut) =>
        let f2 := { f1 with
          pipesAllocated := f1.pipesAllocated + 1,
          copyLoopsStarted := f1.copyLoopsStarted + 1,
          swapsPerformed := f1.swapsPerformed + 1 }
        ({ st with stdout := wOut }, f2, none)
  match step with
  | (st1, f1, some e) => (setFwd st1 dest f1, some e)
  | (st1, f1, none) =>
    let f2 := { f1 with writers := some (mapInsert (f1.writers.getD []) id w) }
    (setFwd st1 dest f2, none)

/-- `AddStdoutWriter(id, w)`: forwards the current value of `os.Stdout`. -/
def AddStdoutWriter (st : St) (id : String) (w : WriterId)
    (pipeRes : Option (Handle × Handle)) : St × Option String :=
  addWriter st .stdout st.stdout id w pipeRes

/-- `AddStderrWriter(id, w)`: forwards the current value of `os.Stderr`. -/
def AddStderrWriter (st : St) (id : String) (w : WriterId)
    (pipeRes : Option (Handle × Handle)) : St × Option String :=
  addWriter st .stderr st.stderr id w pipeRes

/-- `RemoveStdoutWriter(id)`: `delete(stdoutForwarder.writers, id)` under the
exclusive lock; deleting from the nil (never-made) map is a no-op. -/
def RemoveStdoutWriter (st : St) (id : String) : St :=
  { st with stdoutForwarder := { st.stdoutForwarder with
      writers := st.stdoutForwarder.writers.map (fun m => mapDelete m id) } }

/-- `RemoveStderrWriter(id)`: same on the stderr forwarder. -/
def RemoveStderrWriter (st : St) (id : String) : St :=
  { st with stderrForwarder := { st.stderrForwarder with
      writers := st.stderrForwarder.writers.map (fun m => mapDelete m id) } }

/-- Outcome of one `forwarder.Write` call: the returned pair `(n, err)`, the
bytes pushed at the real stream, the bytes pushed at each registered consumer,
the warnings logged, and the forwarder state after the call. -/
structure WriteResult where
  n : Nat
  err : Option String
  realBytes : List Byte
  deliveries : List (String × List Byte)
  logs : List String
  post : Forwarder
deriving DecidableEq, Repr

/-- The `for _, w := range f.writers` loop of `forwarder.Write`: push `p` at
every registered consumer; a consumer whose write errors contributes a warning
and the loop continues. -/
def broadcast (ws : List (String × WriterId)) (p : List Byte)
    (consumerErr : String → Option String) : List (String × List Byte) × List String :=
  match ws with
  | [] => ([], [])
  | (id, _) :: rest =>
    let tail := broadcast rest p consumerErr
    match consumerErr id with
    | some e => ((id, p) :: tail.1, ("Failed to forward logs: " ++ e) :: tail.2)
    | none => ((id, p) :: tail.1, tail.2)

/-- `forwarder.Write(p)` from the source: write `p` to `f.out` first (the
outcome `realRes` is an oracle; failure only logs a warning), then broadcast
`p` to every registered writer under the read lock, then return `(n, nil)`
where `n` came from the real-stream write. -/
def fwdWrite (f : Forwarder) (p : List Byte) (realRes : Nat × Option String)
    (consumerErr : String → Option String) : WriteResult :=
  let n := realRes.1
  let warn0 :=
    match realRes.2 with
    | some e => ["Failed to write to regular output: " ++ e]
    | none => []
  let bc := broadcast (f.writers.getD []) p consumerErr
  { n := n, err := none, realBytes := p, deliveries := bc.1,
    logs := warn0 ++ bc.2, post := f }

/-- One operation of a client trace against the stdout forwarder. -/
inductive Op where
  | reg (id : String) (w : WriterId)
  | unreg (id : String)
  | write (p : List Byte)
deriving DecidableEq, Repr

/-- Execute one trace operation: `reg` is `AddStdoutWriter` (pipe allocation
succeeding), `unreg` is `RemoveStdoutWriter`, `write` is the copy loop handing
a chunk to `forwarder.Write`; the second component lists the per-consumer
deliveries the operation produced. -/
def stepOp (st : St) : Op → St × List (String × List Byte)
  | .reg id w => ((AddStdoutWriter st id w (some (100, 101))).1, [])
  | .unreg id => (RemoveStdoutWriter st id, [])
  | .write p =>
    (st, (fwdWrite st.stdoutForwarder p (p.length, none) (fun _ => none)).deliveries)

/-- Run a trace, accumulating all deliveries in order. -/
def runOps (st : St) : List Op → St × List (String × List Byte)
  | [] => (st, [])
  | op :: rest =>
    let s1 := stepOp st op
    let s2 := runOps s1.1 rest
    (s2.1, s1.2 ++ s2.2)

/-- The chunks a given consumer id received, in order. -/
def deliveredTo (id : String) (ds : List (String × List Byte)) : List (List Byte) :=
  (ds.filter (fun d => d.1 == id)).map Prod.snd

/-- Specification of what `id` should observe: the chunks written while `id`
is registered, where `r` says whether it is registered at the start. -/
def writesWhile (id : String) : Bool → List Op → List (List Byte)
  | _, [] => []
  | r, .reg i _ :: rest => writesWhile id (if i = id then true else r) rest
  | r, .unreg i :: rest => writesWhile id (if i = id then false else r) rest
  | r, .write p :: rest => (if r then [p] else []) ++ writesWhile id r rest

/-- One registration request, for runs that mix both streams. -/
structure AddReq where
  dest : StreamKind
  id : String
  w : WriterId
  pipeRes : Option (Handle × Handle)
deriving DecidableEq, Repr

/-- Dispatch one registration request to the public entry point it names. -/
def doAdd (st : St) (r : AddReq) : St × Option String :=
  match r.dest with
  | .stdout => AddStdoutWriter st r.id r.w r.pipeRes
  | .stderr => AddStderrWriter st r.id r.w r.pipeRes

/-- Run a sequence of `AddStdoutWriter` / `AddStderrWriter` calls. -/
def runAdds (st : St) : List AddReq → St
  | [] => st
  | r :: rest => runAdds (doAdd st r).1 rest

/-- Once-gate bookkeeping invariant of a forwarder: before the gate fires
nothing has been allocated, and nothing is ever allocated twice. -/
def onceConsistent (f : Forwarder) : Prop :=
  (f.once = false → f.pipesAllocated = 0 ∧ f.copyLoopsStarted = 0 ∧ f.swapsPerformed = 0)
  ∧ f.pipesAllocated ≤ 1 ∧ f.copyLoopsStarted ≤ 1 ∧ f.swapsPerformed ≤ 1

instance (f : Forwarder) : Decidable (onceConsistent f) := by
  unfold onceConsistent; infer_instance

instance (m : List (String × WriterId)) : Decidable (NodupKeys m) := by
  unfold NodupKeys; infer_instance

/-! ### Helper lemmas on the registry map and the write path -/

theorem broadcast_fst (ws : List (String × WriterId)) (p : List Byte)
    (cerr : String → Option String) :
    (broadcast ws p cerr).1 = ws.map (fun e => (e.1, p)) := by
  induction ws with
  | nil => rfl
  | cons kv rest ih =>
    obtain ⟨k, v⟩ := kv
    simp only [broadcast]
    cases cerr k <;> simp [ih]

theorem mapLookup_mapInsert_self (m : List (String × WriterId)) (id : String)
    (w : WriterId) : mapLookup (mapInsert m id w) id = some w := by
  induction m with
  | nil => simp [mapInsert, mapLookup]
  | cons kv rest ih =>
    obtain ⟨k, v⟩ := kv
    by_cases h : k = id <;> simp [mapInsert, mapLookup, h, ih]

theorem mapLookup_mapInsert_other (m : List (String × WriterId)) (j id : String)
    (w : WriterId) (h : j ≠ id) :
    mapLookup (mapInsert m j w) id = mapLookup m id := by
  induction m with
  | nil => simp [mapInsert, mapLookup, h]
  | cons kv rest ih =>
    obtain ⟨k, v⟩ := kv
    by_cases hk : k = j
    · subst hk
      simp [mapInsert, mapLookup, h]
    · simp [mapInsert, mapLookup, hk, ih]

theorem mapInsert_mapInsert_same (m : List (String × WriterId)) (id : String)
    (w1 w2 : WriterId) :
    mapInsert (mapInsert m id w1) id w2 = mapInsert m id w2 := by
  induction m with
  | nil => simp [mapInsert]
  | cons kv rest ih =>
    obtain ⟨k, v⟩ := kv
    by_cases h : k = id <;> simp [mapInsert, h, ih]

theorem mapDelete_of_lookup_none (m : List (String × WriterId)) (id : String)
    (h : mapLookup m id = none) : mapDelete m id = m := by
  induction m with
  | nil => rfl
  | cons kv rest ih =>
    obtain ⟨k, v⟩ := kv
    by_cases hk : k = id
    · simp [mapLookup, hk] at h
    · simp only [mapLookup, if_neg hk] at h
      simp [mapDelete, hk, ih h]

theorem mapLookup_eq_none_iff (m : List (String × WriterId)) (id : String) :
    mapLookup m id = none ↔ id ∉ mapKeys m := by
  induction m with
  | nil => simp [mapLookup, mapKeys]
  | cons kv rest ih =>
    obtain ⟨k, v⟩ := kv
    simp only [mapKeys, List.map_cons, List.mem_cons]
    by_cases hk : k = id
    · subst hk
      simp [mapLookup]
    · simp only [mapLookup, if_neg hk]
      rw [ih]
      constructor
      · intro hnone hmem
        rcases hmem with h1 | h2
        · exact hk h1.symm
        · exact hnone (by simpa [mapKeys] using h2)
      · intro hnot hmem
        exact hnot (Or.inr (by simpa [mapKeys] using hmem))

theorem mapKeys_mapDelete_subset (m : List (String × WriterId)) (id : String) :
    mapKeys (mapDelete m id) ⊆ mapKeys m := by
  induction m with
  | nil => simp [mapDelete]
  | cons kv rest ih =>
    obtain ⟨k, v⟩ := kv
    by_cases hk : k = id
    · simp only [mapDelete, if_pos hk, mapKeys, List.map_cons]
      exact fun a ha => List.mem_cons_of_mem _ ha
    · simp only [mapDelete, if_neg hk, mapKeys, List.map_cons]
      intro a ha
      rcases List.mem_cons.mp ha with h1 | h2
      · exact List.mem_cons.mpr (Or.inl h1)
      · exact List.mem_cons.mpr (Or.inr (ih h2))

theorem mapKeys_mapInsert_subset (m : List (String × WriterId)) (id : String)
    (w : WriterId) : mapKeys (mapInsert m id w) ⊆ id :: mapKeys m := by
  induction m with
  | nil => simp [mapInsert, mapKeys]
  | cons kv rest ih =>
    obtain ⟨k, v⟩ := kv
    by_cases hk : k = id
    · subst hk
      simp only [mapInsert, if_pos rfl, mapKeys, List.map_cons]
      intro a ha
      rcases List.mem_cons.mp ha with h1 | h2
      · exact List.mem_cons.mpr (Or.inl h1)
      · exact List.mem_cons.mpr (Or.inr (List.mem_cons.mpr (Or.inr h2)))
    · simp only [mapInsert, if_neg hk, mapKeys, List.map_cons]
      intro a ha
      rcases List.mem_cons.mp ha with h1 | h2
      · exact List.mem_cons.mpr (Or.inr (List.mem_cons.mpr (Or.inl h1)))
      · rcases List.mem_cons.mp (ih h2) with h3 | h4
        · exact List.mem_cons.mpr (Or.inl h3)
        · exact List.mem_cons.mpr (Or.inr (List.mem_cons.mpr (Or.inr h4)))

theorem nodupKeys_mapDelete (m : List (String × WriterId)) (id : String)
    (h : NodupKeys m) : NodupKeys (mapDelete m id) := by
  induction m with
  | nil => exact h
  | cons kv rest ih =>
    obtain ⟨k, v⟩ := kv
    simp only [NodupKeys, mapKeys, List.map_cons, List.nodup_cons] at h
    by_cases hk : k = id
    · simp only [mapDelete, if_pos hk, NodupKeys, mapKeys]
      exact h.2
    · have hrest := ih h.2
      simp only [mapDelete, if_neg hk, NodupKeys, mapKeys, List.map_cons,
        List.nodup_cons]
      refine ⟨fun hmem => h.1 ?_, hrest⟩
      exact mapKeys_mapDelete_subset rest id hmem

theorem mapLookup_mapDelete_self (m : List (String × WriterId)) (id : String)
    (h : NodupKeys m) : mapLookup (mapDelete m id) id = none := by
  induction m with
  | nil => rfl
  | cons kv rest ih =>
    obtain ⟨k, v⟩ := kv
    simp only [NodupKeys, mapKeys, List.map_cons, List.nodup_cons] at h
    by_cases hk : k = id
    · subst hk
      simp only [mapDelete, if_pos rfl]
      exact (mapLookup_eq_none_iff rest k).2 h.1
    · simp [mapDelete, mapLookup, hk, ih h.2]

theorem mapLookup_mapDelete_other (m : List (String × WriterId)) (j id : String)
    (h : j ≠ id) : mapLookup (mapDelete m j) id = mapLookup m id := by
  induction m with
  | nil => rfl
  | cons kv rest ih =>
    obtain ⟨k, v⟩ := kv
    by_cases hk : k = j
    · subst hk
      simp [mapDelete, mapLookup, h]
    · by_cases hki : k = id
      · subst hki
        simp [mapDelete, mapLookup, hk]
      · simp [mapDelete, mapLookup, hk, hki, ih]

theorem nodupKeys_mapInsert (m : List (String × WriterId)) (id : String)
    (w : WriterId) (h : NodupKeys m) : NodupKeys (mapInsert m id w) := by
  induction m with
  | nil => simp [mapInsert, NodupKeys, mapKeys]
  | cons kv rest ih =>
    obtain ⟨k, v⟩ := kv
    simp only [NodupKeys, mapKeys, List.map_cons, List.nodup_cons] at h
    by_cases hk : k = id
    · subst hk
      have hins : mapInsert ((k, v) :: rest) k w = (k, w) :: rest := by
        simp [mapInsert]
      rw [hins]
      simp only [NodupKeys, mapKeys, List.map_cons, List.nodup_cons]
      exact h
    · have hrest := ih h.2
      simp only [mapInsert, if_neg hk, NodupKeys, mapKeys, List.map_cons,
        List.nodup_cons]
      refine ⟨fun hmem => ?_, hrest⟩
      rcases List.mem_cons.mp (mapKeys_mapInsert_subset rest id w hmem) with h3 | h4
      · exact absurd h3 hk
      · exact h.1 h4

/-! ### Characterizations of `addWriter` by gate state -/

theorem addWriter_once_true (st : St) (dest : StreamKind) (std : Handle)
    (id : String) (w : WriterId) (pr : Option (Handle × Handle))
    (h : (getFwd st dest).once = true) :
    addWriter st dest std id w pr =
      (setFwd st dest { getFwd st dest with
        writers := some (mapInsert ((getFwd st dest).writers.getD []) id w) },
       none) := by
  simp [addWriter, h]

theorem addWriter_once_false_fail (st : St) (dest : StreamKind) (std : Handle)
    (id : String) (w : WriterId)
    (h : (getFwd st dest).once = false) :
    addWriter st dest std id w none =
      (setFwd st dest { getFwd st dest with
        once := true, out := some std, writers := some [] },
       some "Can't redirect output") := by
  simp [addWriter, h]

theorem addWriter_once_false_ok (st : St) (dest : StreamKind) (std : Handle)
    (id : String) (w : WriterId) (rOut wOut : Handle)
    (h : (getFwd st dest).once = false) :
    addWriter st dest std id w (some (rOut, wOut)) =
      (setFwd { st with stdout := wOut } dest { getFwd st dest with
        once := true, out := some std, writers := some (mapInsert [] id w),
        pipesAllocated := (getFwd st dest).pipesAllocated + 1,
        copyLoopsStarted := (getFwd st dest).copyLoopsStarted + 1,
        swapsPerformed := (getFwd st dest).swapsPerformed + 1 },
       none) := by
  simp [addWriter, h]

/-! ### Claim theorems -/

/-- C3: `forwarder.Write` pushes the bytes at the real original stream first
and, whatever the outcome of that write, still pushes the same bytes at every
registered consumer; it returns the byte count reported by the real-stream
write together with a nil error, for every consumer-failure oracle. -/
theorem write_returns_real_count_nil_error (f : Forwarder) (p : List Byte)
    (realRes : Nat × Option String) (cerr : String → Option String) :
    (fwdWrite f p realRes cerr).n = realRes.1
    ∧ (fwdWrite f p realRes cerr).err = none
    ∧ (fwdWrite f p realRes cerr).realBytes = p
    ∧ (fwdWrite f p realRes cerr).deliveries
        = (f.writers.getD []).map (fun e => (e.1, p)) := by
  refine ⟨rfl, rfl, rfl, ?_⟩
  simp [fwdWrite, broadcast_fst]

/-- C4: during one broadcast, a consumer whose write fails is invisible to the
rest: deliveries and the returned count are identical under any two
consumer-failure oracles, every registered consumer still gets the bytes, the
real stream still gets them, and the registry after the call is exactly the
registry before. -/
theorem failing_consumer_is_isolated (f : Forwarder) (p : List Byte)
    (realRes : Nat × Option String) (cerr cerrB : String → Option String) :
    (fwdWrite f p realRes cerr).deliveries = (fwdWrite f p realRes cerrB).deliveries
    ∧ (fwdWrite f p realRes cerr).deliveries
        = (f.writers.getD []).map (fun e => (e.1, p))
    ∧ (fwdWrite f p realRes cerr).realBytes = p
    ∧ (fwdWrite f p realRes cerr).post = f
    ∧ (fwdWrite f p realRes cerr).n = (fwdWrite f p realRes cerrB).n := by
  refine ⟨?_, ?_, rfl, rfl, rfl⟩ <;> simp [fwdWrite, broadcast_fst]

/-- C1 (code bug): the first `AddStderrWriter` call captures the current
stderr handle into `out`, allocates the pipe and starts the copy loop, but the
process-global handle it replaces is `os.Stdout`, not `os.Stderr` (source line
`os.Stdout = wOut` runs for both forwarders): the stderr handle keeps its
original value, so bytes written to stderr never enter the pipe. -/
theorem first_addStderrWriter_leaves_stderr_unswapped :
    (AddStderrWriter initSt "id" 0 (some (10, 11))).1.stderr = initSt.stderr
    ∧ (AddStderrWriter initSt "id" 0 (some (10, 11))).1.stdout = 11
    ∧ (AddStderrWriter initSt "id" 0 (some (10, 11))).1.stderrForwarder.out
        = some initSt.stderr
    ∧ (AddStderrWriter initSt "id" 0 (some (10, 11))).1.stderrForwarder.pipesAllocated = 1
    ∧ (AddStderrWriter initSt "id" 0 (some (10, 11))).1.stderrForwarder.copyLoopsStarted = 1
    ∧ (AddStderrWriter initSt "id" 0 (some (10, 11))).2 = none := by
  decide

/-- C10 (code bug): the first `AddStderrWriter` call mutates the process-global
stdout handle (while the symmetric direction does hold: `AddStdoutWriter`
leaves the whole stderr side untouched). -/
theorem addStderrWriter_mutates_stdout_handle :
    (AddStderrWriter initSt "log" 7 (some (20, 21))).1.stdout = 21
    ∧ initSt.stdout = 1
    ∧ (AddStderrWriter initSt "log" 7 (some (20, 21))).1.stdout ≠ initSt.stdout
    ∧ (AddStdoutWriter initSt "log" 7 (some (20, 21))).1.stderr = initSt.stderr
    ∧ (AddStdoutWriter initSt "log" 7 (some (20, 21))).1.stderrForwarder
        = initSt.stderrForwarder := by
  decide

/-- C6 counterexample: after a first registration whose pipe allocation failed,
the once gate is consumed (`once = true`, no fallback to an uninitialized
forwarder), and the very next registration returns nil — reporting success —
while no copy loop was ever started and the global handle was never swapped. -/
theorem failed_then_successful_registration :
    (AddStdoutWriter (AddStdoutWriter initSt "a" 0 none).1 "b" 1 (some (5, 6))).2 = none
    ∧ (AddStdoutWriter (AddStdoutWriter initSt "a" 0 none).1 "b" 1
        (some (5, 6))).1.stdoutForwarder.copyLoopsStarted = 0
    ∧ (AddStdoutWriter (AddStdoutWriter initSt "a" 0 none).1 "b" 1
        (some (5, 6))).1.stdout = initSt.stdout
    ∧ (AddStdoutWriter initSt "a" 0 none).1.stdoutForwarder.once = true := by
  decide

/-- C6 (amended): if pipe allocation fails on the first registration attempt,
that call returns a non-nil error, inserts nothing into the registry, and
performs no interception (no swap, no pipe, no copy loop); however the
one-time gate is consumed (`once` becomes true), so the forwarder does not
fall back to "no interception yet". -/
theorem pipe_failure_first_attempt (st : St) (id : String) (w : WriterId)
    (h : st.stdoutForwarder.once = false) :
    (AddStdoutWriter st id w none).2 = some "Can't redirect output"
    ∧ (AddStdoutWriter st id w none).1.stdoutForwarder.writers = some []
    ∧ (AddStdoutWriter st id w none).1.stdout = st.stdout
    ∧ (AddStdoutWriter st id w none).1.stderr = st.stderr
    ∧ (AddStdoutWriter st id w none).1.stdoutForwarder.copyLoopsStarted
        = st.stdoutForwarder.copyLoopsStarted
    ∧ (AddStdoutWriter st id w none).1.stdoutForwarder.swapsPerformed
        = st.stdoutForwarder.swapsPerformed
    ∧ (AddStdoutWriter st id w none).1.stdoutForwarder.pipesAllocated
        = st.stdoutForwarder.pipesAllocated
    ∧ (AddStdoutWriter st id w none).1.stdoutForwarder.once = true := by
  have hc := addWriter_once_false_fail st .stdout st.stdout id w h
  simp only [AddStdoutWriter, hc, setFwd, getFwd]
  simp

/-- C6 witness: the amended statement at the initial process state. -/
theorem pipe_failure_first_attempt_witness :
    initSt.stdoutForwarder.once = false
    ∧ (AddStdoutWriter initSt "a" 0 none).2 = some "Can't redirect output" :=
  ⟨rfl, (pipe_failure_first_attempt initSt "a" 0 rfl).1⟩

/-- C7: once the gate has fired (in particular after a first attempt whose
pipe allocation failed), every later `AddStdoutWriter` call returns nil and
inserts its writer into the registry, while allocating no pipe, starting no
copy loop and touching no global handle — the failed interception is never
retried, so with a copy-loop count of zero the inserted writers can never
receive a broadcast. -/
theorem add_after_gate_fired (st : St) (id : String) (w : WriterId)
    (pr : Option (Handle × Handle)) (h : st.stdoutForwarder.once = true) :
    (AddStdoutWriter st id w pr).2 = none
    ∧ (AddStdoutWriter st id w pr).1.stdoutForwarder.writers
        = some (mapInsert (st.stdoutForwarder.writers.getD []) id w)
    ∧ mapLookup ((AddStdoutWriter st id w pr).1.stdoutForwarder.writers.getD []) id
        = some w
    ∧ (AddStdoutWriter st id w pr).1.stdoutForwarder.once = true
    ∧ (AddStdoutWriter st id w pr).1.stdoutForwarder.copyLoopsStarted
        = st.stdoutForwarder.copyLoopsStarted
    ∧ (AddStdoutWriter st id w pr).1.stdoutForwarder.pipesAllocated
        = st.stdoutForwarder.pipesAllocated
    ∧ (AddStdoutWriter st id w pr).1.stdoutForwarder.swapsPerformed
        = st.stdoutForwarder.swapsPerformed
    ∧ (AddStdoutWriter st id w pr).1.stdout = st.stdout
    ∧ (AddStdoutWriter st id w pr).1.stderr = st.stderr := by
  have hc := addWriter_once_true st .stdout st.stdout id w pr h
  simp only [AddStdoutWriter, hc, setFwd, getFwd]
  simp [mapLookup_mapInsert_self, h]

/-- C7 witness: after a failed first attempt, the next call reports success. -/
theorem add_after_gate_fired_witness :
    (AddStdoutWriter (AddStdoutWriter initSt "x" 0 none).1 "y" 1 (some (7, 8))).2 = none
    ∧ (AddStdoutWriter (AddStdoutWriter initSt "x" 0 none).1 "y" 1
        (some (7, 8))).1.stdoutForwarder.copyLoopsStarted
      = (AddStdoutWriter initSt "x" 0 none).1.stdoutForwarder.copyLoopsStarted :=
  ⟨(add_after_gate_fired (AddStdoutWriter initSt "x" 0 none).1 "y" 1 (some (7, 8))
      (by decide)).1,
   (add_after_gate_fired (AddStdoutWriter initSt "x" 0 none).1 "y" 1 (some (7, 8))
      (by decide)).2.2.2.2.1⟩

/-- C9: the removal operations always succeed with no error path: they delete
the id from the registry when present, change nothing else, are a no-op on an
id that is not registered, and are safe before any interception (registry still
nil). -/
theorem remove_writer_unconditional (st : St) (id : String) :
    (RemoveStdoutWriter st id).stdoutForwarder.writers
        = st.stdoutForwarder.writers.map (fun m => mapDelete m id)
    ∧ (RemoveStdoutWriter st id).stdout = st.stdout
    ∧ (RemoveStdoutWriter st id).stderr = st.stderr
    ∧ (RemoveStdoutWriter st id).stderrForwarder = st.stderrForwarder
    ∧ (RemoveStdoutWriter st id).stdoutForwarder.once = st.stdoutForwarder.once
    ∧ (mapLookup (st.stdoutForwarder.writers.getD []) id = none →
        RemoveStdoutWriter st id = st)
    ∧ (NodupKeys (st.stdoutForwarder.writers.getD []) →
        mapLookup ((RemoveStdoutWriter st id).stdoutForwarder.writers.getD []) id
          = none)
    ∧ (RemoveStderrWriter st id).stderrForwarder.writers
        = st.stderrForwarder.writers.map (fun m => mapDelete m id)
    ∧ (RemoveStderrWriter st id).stdoutForwarder = st.stdoutForwarder
    ∧ (mapLookup (st.stderrForwarder.writers.getD []) id = none →
        RemoveStderrWriter st id = st) := by
  obtain ⟨so, se, fo, fe⟩ := st
  obtain ⟨foOut, foW, foOnce, foP, foC, foS⟩ := fo
  obtain ⟨feOut, feW, feOnce, feP, feC, feS⟩ := fe
  refine ⟨rfl, rfl, rfl, rfl, rfl, ?_, ?_, rfl, rfl, ?_⟩
  · intro hnone
    cases foW with
    | none => rfl
    | some m =>
      simp only [Option.getD_some] at hnone
      simp [RemoveStdoutWriter, mapDelete_of_lookup_none m id hnone]
  · intro hnodup
    cases foW with
    | none => rfl
    | some m =>
      simp only [Option.getD_some] at hnodup
      simp [RemoveStdoutWriter, mapLookup_mapDelete_self m id hnodup]
  · intro hnone
    cases feW with
    | none => rfl
    | some m =>
      simp only [Option.getD_some] at hnone
      simp [RemoveStderrWriter, mapDelete_of_lookup_none m id hnone]

/-- C9 witness: removing an unregistered id from the fresh state is a no-op,
and removing a just-registered id clears its registry entry. -/
theorem remove_writer_unconditional_witness :
    RemoveStdoutWriter initSt "zz" = initSt
    ∧ mapLookup ((RemoveStdoutWriter (AddStdoutWriter initSt "a" 5 (some (3, 4))).1
        "a").stdoutForwarder.writers.getD []) "a" = none :=
  ⟨(remove_writer_unconditional initSt "zz").2.2.2.2.2.1 (by decide),
   (remove_writer_unconditional (AddStdoutWriter initSt "a" 5 (some (3, 4))).1
      "a").2.2.2.2.2.2.1 (by decide)⟩

/-- The registry after a successful `AddStdoutWriter`: the incoming entry is
inserted into the current map when the gate had fired, or into the fresh empty
map when this call fires it; either way the gate is fired afterwards. -/
theorem writers_after_add (st : St) (id : String) (w : WriterId) (r o : Handle) :
    (AddStdoutWriter st id w (some (r, o))).1.stdoutForwarder.writers
      = some (mapInsert
          (if st.stdoutForwarder.once = true then st.stdoutForwarder.writers.getD []
           else []) id w)
    ∧ (AddStdoutWriter st id w (some (r, o))).1.stdoutForwarder.once = true := by
  cases ho : st.stdoutForwarder.once
  · have c := addWriter_once_false_ok st .stdout st.stdout id w r o ho
    simp only [AddStdoutWriter] at *
    rw [c]
    simp [setFwd, getFwd, ho]
  · have c := addWriter_once_true st .stdout st.stdout id w (some (r, o)) ho
    simp only [AddStdoutWriter] at *
    rw [c]
    simp [setFwd, getFwd, ho]

/-- C8: registering twice under one id replaces the first writer: the registry
after `Add(id, w1); Add(id, w2)` equals the registry after `Add(id, w2)` alone,
and the id now maps to `w2`, which is therefore the only writer under that id
reached by a broadcast. -/
theorem register_same_id_last_wins (st : St) (id : String) (w1 w2 : WriterId)
    (h1 h2 h3 : Handle × Handle) :
    (AddStdoutWriter (AddStdoutWriter st id w1 (some h1)).1 id w2
        (some h2)).1.stdoutForwarder.writers
      = (AddStdoutWriter st id w2 (some h3)).1.stdoutForwarder.writers
    ∧ mapLookup ((AddStdoutWriter (AddStdoutWriter st id w1 (some h1)).1 id w2
        (some h2)).1.stdoutForwarder.writers.getD []) id = some w2 := by
  obtain ⟨r1, o1⟩ := h1
  obtain ⟨r2, o2⟩ := h2
  obtain ⟨r3, o3⟩ := h3
  obtain ⟨hw1, ho1⟩ := writers_after_add st id w1 r1 o1
  obtain ⟨hw2, ho2⟩ :=
    writers_after_add (AddStdoutWriter st id w1 (some (r1, o1))).1 id w2 r2 o2
  obtain ⟨hw3, ho3⟩ := writers_after_add st id w2 r3 o3
  rw [hw2, ho1, hw1, hw3]
  constructor
  · simp [mapInsert_mapInsert_same]
  · simp [mapLookup_mapInsert_self]

/-- One registration call keeps the once-gate bookkeeping of both forwarders
consistent and never clears a fired gate. -/
theorem doAdd_bookkeeping (st : St) (r : AddReq) :
    (onceConsistent st.stdoutForwarder → onceConsistent (doAdd st r).1.stdoutForwarder)
    ∧ (onceConsistent st.stderrForwarder → onceConsistent (doAdd st r).1.stderrForwarder)
    ∧ (st.stdoutForwarder.once = true → (doAdd st r).1.stdoutForwarder.once = true)
    ∧ (st.stderrForwarder.once = true → (doAdd st r).1.stderrForwarder.once = true) := by
  obtain ⟨dest, id, w, pr⟩ := r
  cases dest
  case stdout =>
    cases ho : st.stdoutForwarder.once
    · cases pr with
      | none =>
        have hst : (doAdd st ⟨StreamKind.stdout, id, w, none⟩).1
            = setFwd st .stdout { getFwd st .stdout with
                once := true, out := some st.stdout, writers := some [] } := by
          have c := addWriter_once_false_fail st .stdout st.stdout id w ho
          simp only [doAdd, AddStdoutWriter, c]
        rw [hst]
        refine ⟨fun hc => ?_, fun hc => hc, fun _ => rfl, fun ht => ht⟩
        obtain ⟨h0, hp, hl, hs⟩ := hc
        exact ⟨fun hff => Bool.noConfusion hff, hp, hl, hs⟩
      | some pw =>
        obtain ⟨rr, ww⟩ := pw
        have hst : (doAdd st ⟨StreamKind.stdout, id, w, some (rr, ww)⟩).1
            = setFwd { st with stdout := ww } .stdout { getFwd st .stdout with
                once := true, out := some st.stdout,
                writers := some (mapInsert [] id w),
                pipesAllocated := (getFwd st .stdout).pipesAllocated + 1,
                copyLoopsStarted := (getFwd st .stdout).copyLoopsStarted + 1,
                swapsPerformed := (getFwd st .stdout).swapsPerformed + 1 } := by
          have c := addWriter_once_false_ok st .stdout st.stdout id w rr ww ho
          simp only [doAdd, AddStdoutWriter, c]
        rw [hst]
        refine ⟨fun hc => ?_, fun hc => hc, fun _ => rfl, fun ht => ht⟩
        obtain ⟨h0, hp, hl, hs⟩ := hc
        obtain ⟨e1, e2, e3⟩ := h0 ho
        refine ⟨fun hff => Bool.noConfusion hff, ?_, ?_, ?_⟩
        · show st.stdoutForwarder.pipesAllocated + 1 ≤ 1
          omega
        · show st.stdoutForwarder.copyLoopsStarted + 1 ≤ 1
          omega
        · show st.stdoutForwarder.swapsPerformed + 1 ≤ 1
          omega
    · have hst : (doAdd st ⟨StreamKind.stdout, id, w, pr⟩).1
          = setFwd st .stdout { getFwd st .stdout with
              writers := some (mapInsert ((getFwd st .stdout).writers.getD []) id w) } := by
        have c := addWriter_once_true st .stdout st.stdout id w pr ho
        simp only [doAdd, AddStdoutWriter, c]
      rw [hst]
      exact ⟨fun hc => hc, fun hc => hc, fun _ => ho, fun ht => ht⟩
  case stderr =>
    cases ho : st.stderrForwarder.once
    · cases pr with
      | none =>
        have hst : (doAdd st ⟨StreamKind.stderr, id, w, none⟩).1
            = setFwd st .stderr { getFwd st .stderr with
                once := true, out := some st.stderr, writers := some [] } := by
          have c := addWriter_once_false_fail st .stderr st.stderr id w ho
          simp only [doAdd, AddStderrWriter, c]
        rw [hst]
        refine ⟨fun hc => hc, fun hc => ?_, fun ht => ht, fun _ => rfl⟩
        obtain ⟨h0, hp, hl, hs⟩ := hc
        exact ⟨fun hff => Bool.noConfusion hff, hp, hl, hs⟩
      | some pw =>
        obtain ⟨rr, ww⟩ := pw
        have hst : (doAdd st ⟨StreamKind.stderr, id, w, some (rr, ww)⟩).1
            = setFwd { st with stdout := ww } .stderr { getFwd st .stderr with
                once := true, out := some st.stderr,
                writers := some (mapInsert [] id w),
                pipesAllocated := (getFwd st .stderr).pipesAllocated + 1,
                copyLoopsStarted := (getFwd st .stderr).copyLoopsStarted + 1,
                swapsPerformed := (getFwd st .stderr).swapsPerformed + 1 } := by
          have c := addWriter_once_false_ok st .stderr st.stderr id w rr ww ho
          simp only [doAdd, AddStderrWriter, c]
        rw [hst]
        refine ⟨fun hc => hc, fun hc => ?_, fun ht => ht, fun _ => rfl⟩
        obtain ⟨h0, hp, hl, hs⟩ := hc
        obtain ⟨e1, e2, e3⟩ := h0 ho
        refine ⟨fun hff => Bool.noConfusion hff, ?_, ?_, ?_⟩
        · show st.stderrForwarder.pipesAllocated + 1 ≤ 1
          omega
        · show st.stderrForwarder.copyLoopsStarted + 1 ≤ 1
          omega
        · show st.stderrForwarder.swapsPerformed + 1 ≤ 1
          omega
    · have hst : (doAdd st ⟨StreamKind.stderr, id, w, pr⟩).1
          = setFwd st .stderr { getFwd st .stderr with
              writers := some (mapInsert ((getFwd st .stderr).writers.getD []) id w) } := by
        have c := addWriter_once_true st .stderr st.stderr id w pr ho
        simp only [doAdd, AddStderrWriter, c]
      rw [hst]
      exact ⟨fun hc => hc, fun hc => hc, fun ht => ht, fun _ => ho⟩

/-- Any run of registration calls keeps the bookkeeping consistent and never
clears a fired gate. -/
theorem runAdds_bookkeeping (reqs : List AddReq) : ∀ st : St,
    (onceConsistent st.stdoutForwarder → onceConsistent (runAdds st reqs).stdoutForwarder)
    ∧ (onceConsistent st.stderrForwarder → onceConsistent (runAdds st reqs).stderrForwarder)
    ∧ (st.stdoutForwarder.once = true → (runAdds st reqs).stdoutForwarder.once = true)
    ∧ (st.stderrForwarder.once = true → (runAdds st reqs).stderrForwarder.once = true) := by
  induction reqs with
  | nil => exact fun st => ⟨fun h => h, fun h => h, fun h => h, fun h => h⟩
  | cons r rest ih =>
    intro st
    obtain ⟨a1, a2, a3, a4⟩ := doAdd_bookkeeping st r
    obtain ⟨b1, b2, b3, b4⟩ := ih (doAdd st r).1
    exact ⟨fun h => b1 (a1 h), fun h => b2 (a2 h), fun h => b3 (a3 h),
      fun h => b4 (a4 h)⟩

/-- C5: per forwarder, interception happens at most once for the process
lifetime: over any sequence of registration calls, at most one pipe is
allocated, the global handle swap runs at most once, at most one copy loop is
started, a fired gate never unfires (no way back to Uninitialized), and a call
that finds the gate fired returns nil and changes nothing but the registry. -/
theorem interception_at_most_once (st : St) (reqs : List AddReq)
    (hOut : onceConsistent st.stdoutForwarder)
    (hErr : onceConsistent st.stderrForwarder) :
    onceConsistent (runAdds st reqs).stdoutForwarder
    ∧ onceConsistent (runAdds st reqs).stderrForwarder
    ∧ (st.stdoutForwarder.once = true → (runAdds st reqs).stdoutForwarder.once = true)
    ∧ (st.stderrForwarder.once = true → (runAdds st reqs).stderrForwarder.once = true)
    ∧ (∀ id w pr, st.stdoutForwarder.once = true →
        (AddStdoutWriter st id w pr).1
          = { st with stdoutForwarder := { st.stdoutForwarder with
              writers := some (mapInsert (st.stdoutForwarder.writers.getD []) id w) } }
        ∧ (AddStdoutWriter st id w pr).2 = none) := by
  obtain ⟨b1, b2, b3, b4⟩ := runAdds_bookkeeping reqs st
  refine ⟨b1 hOut, b2 hErr, b3, b4, ?_⟩
  intro id w pr h
  have hoc : AddStdoutWriter st id w pr
      = (setFwd st .stdout { getFwd st .stdout with
          writers := some (mapInsert ((getFwd st .stdout).writers.getD []) id w) },
         none) := addWriter_once_true st .stdout st.stdout id w pr h
  rw [hoc]
  exact ⟨rfl, rfl⟩

/-- C5 witness: two racing-style registrations from the fresh state leave at
most one pipe, one swap and one copy loop on the stdout forwarder. -/
theorem interception_at_most_once_witness :
    onceConsistent ((runAdds initSt
      [⟨.stdout, "a", 0, some (3, 4)⟩, ⟨.stdout, "b", 1, some (5, 6)⟩]).stdoutForwarder) :=
  (interception_at_most_once initSt
    [⟨.stdout, "a", 0, some (3, 4)⟩, ⟨.stdout, "b", 1, some (5, 6)⟩]
    (by decide) (by decide)).1

/-- Splitting a delivery log splits what a given consumer received. -/
theorem deliveredTo_append (id : String) (a b : List (String × List Byte)) :
    deliveredTo id (a ++ b) = deliveredTo id a ++ deliveredTo id b := by
  simp [deliveredTo, List.filter_append]

/-- Pushing the registry through `Option.map` of a delete. -/
theorem getD_map_mapDelete (o : Option (List (String × WriterId))) (i : String) :
    (o.map (fun m => mapDelete m i)).getD [] = mapDelete (o.getD []) i := by
  cases o <;> simp [mapDelete]

/-- What one broadcast leaves for consumer `id`: its chunk once when it is
registered, nothing otherwise. -/
theorem deliveredTo_broadcast (ws : List (String × WriterId)) (p : List Byte)
    (id : String) (h : NodupKeys ws) :
    deliveredTo id (ws.map (fun e => (e.1, p)))
      = if (mapLookup ws id).isSome then [p] else [] := by
  induction ws with
  | nil => simp [deliveredTo, mapLookup]
  | cons kv rest ih =>
    obtain ⟨k, v⟩ := kv
    simp only [NodupKeys, mapKeys, List.map_cons, List.nodup_cons] at h
    by_cases hk : k = id
    · subst hk
      have hrest : mapLookup rest k = none := (mapLookup_eq_none_iff rest k).2 h.1
      have ihr := ih h.2
      rw [hrest] at ihr
      simp at ihr
      have hstep : deliveredTo k (((k, v) :: rest).map (fun e => (e.1, p)))
          = p :: deliveredTo k (rest.map (fun e => (e.1, p))) := by
        simp [deliveredTo]
      rw [hstep, ihr]
      simp [mapLookup]
    · have ihr := ih h.2
      have hstep : deliveredTo id (((k, v) :: rest).map (fun e => (e.1, p)))
          = deliveredTo id (rest.map (fun e => (e.1, p))) := by
        simp [deliveredTo, hk]
      rw [hstep, ihr]
      simp [mapLookup, hk]

/-- Refinement of the delivery behaviour of a trace: starting from any state
satisfying the reachability invariants, what consumer `id` receives is exactly
the chunks written while it is registered. -/
theorem runOps_delivered (id : String) (ops : List Op) : ∀ st : St,
    (st.stdoutForwarder.once = false → st.stdoutForwarder.writers = none) →
    NodupKeys (st.stdoutForwarder.writers.getD []) →
    deliveredTo id (runOps st ops).2
      = writesWhile id ((mapLookup (st.stdoutForwarder.writers.getD []) id).isSome)
          ops := by
  induction ops with
  | nil =>
    intro st h1 h2
    simp [runOps, deliveredTo, writesWhile]
  | cons op rest ih =>
    intro st h1 h2
    cases op with
    | reg i w =>
      obtain ⟨hw, ho⟩ := writers_after_add st i w 100 101
      have hXdef : (if st.stdoutForwarder.once = true then
          st.stdoutForwarder.writers.getD [] else [])
          = st.stdoutForwarder.writers.getD [] := by
        cases hoo : st.stdoutForwarder.once
        · simp [h1 hoo]
        · simp
      rw [hXdef] at hw
      have h1b : (AddStdoutWriter st i w (some (100, 101))).1.stdoutForwarder.once = false →
          (AddStdoutWriter st i w (some (100, 101))).1.stdoutForwarder.writers = none := by
        intro hf
        rw [ho] at hf
        cases hf
      have h2b : NodupKeys
          ((AddStdoutWriter st i w (some (100, 101))).1.stdoutForwarder.writers.getD []) := by
        rw [hw]
        simpa using nodupKeys_mapInsert _ i w h2
      have ihr := ih (AddStdoutWriter st i w (some (100, 101))).1 h1b h2b
      simp only [runOps, stepOp, List.nil_append]
      rw [ihr, hw]
      simp only [writesWhile, Option.getD_some]
      by_cases hi : i = id
      · subst hi
        simp [mapLookup_mapInsert_self]
      · simp [mapLookup_mapInsert_other _ _ _ _ hi, hi]
    | unreg i =>
      have hw : (RemoveStdoutWriter st i).stdoutForwarder.writers.getD []
          = mapDelete (st.stdoutForwarder.writers.getD []) i := by
        simp only [RemoveStdoutWriter]
        exact getD_map_mapDelete st.stdoutForwarder.writers i
      have h1b : (RemoveStdoutWriter st i).stdoutForwarder.once = false →
          (RemoveStdoutWriter st i).stdoutForwarder.writers = none := by
        intro hf
        have hf0 : st.stdoutForwarder.once = false := hf
        simp [RemoveStdoutWriter, h1 hf0]
      have h2b : NodupKeys ((RemoveStdoutWriter st i).stdoutForwarder.writers.getD []) := by
        rw [hw]
        exact nodupKeys_mapDelete _ i h2
      have ihr := ih (RemoveStdoutWriter st i) h1b h2b
      simp only [runOps, stepOp, List.nil_append]
      rw [ihr, hw]
      simp only [writesWhile]
      by_cases hi : i = id
      · subst hi
        simp [mapLookup_mapDelete_self _ _ h2]
      · simp [mapLookup_mapDelete_other _ _ _ hi, hi]
    | write p =>
      have ihr := ih st h1 h2
      simp only [runOps, stepOp]
      rw [deliveredTo_append, ihr]
      simp only [writesWhile]
      have hds : (fwdWrite st.stdoutForwarder p (p.length, none)
          (fun _ => none)).deliveries
          = (st.stdoutForwarder.writers.getD []).map (fun e => (e.1, p)) := by
        simp [fwdWrite, broadcast_fst]
      rw [hds, deliveredTo_broadcast _ _ _ h2]

/-- C2: for every client trace against the stdout forwarder starting at
process start, every consumer id receives exactly the chunks written while it
was registered — in write order, nothing duplicated, nothing lost, nothing
from before its registration or after its removal. -/
theorem consumer_receives_writes_while_registered (ops : List Op) (id : String) :
    deliveredTo id (runOps initSt ops).2 = writesWhile id false ops :=
  runOps_delivered id ops initSt (fun _ => rfl) (by simp [initSt, NodupKeys, mapKeys])

end Stdforward
